import Mathlib

/-!
Verification development for the scraping orchestration core of the
`ai_agents_business_systems_platform` repository.

The Python sources under `src/scraping/` are shallowly embedded below:
pure value-manipulating code becomes Lean functions, fallible code returns
`Except`/`Option`, ambient time (`datetime.now()`) becomes an explicit
parameter, and the asyncio event loop (used only by the orchestrator's
`gather` and the scheduler's loop) is modelled by an explicit step relation
resp. an iteration-indexed trace.
-/

namespace Scraping

/-! ### Values and records (Python `Dict[str, Any]` items)

A scraped item is a Python dict mapping string keys to values that are
strings, numbers, lists, dicts or `None`.  Dicts are insertion ordered,
so a record is embedded as an ordered association list. -/

/-- A Python value as handled by `BaseScraper.normalize_data`. -/
inductive Value where
  | null : Value
  | str : String → Value
  | num : Int → Value
  | list : List Value → Value
  | dict : List (String × Value) → Value

/-- A scraped record: an insertion-ordered mapping field name → value. -/
abbrev Rec := List (String × Value)

/-- Python whitespace as recognised by `str.strip()` / `str.split()`
(restricted to the four common ASCII whitespace characters). -/
def isPyWs (c : Char) : Bool :=
  c = ' ' || c = '\t' || c = '\n' || c = '\r'

/-- Character-list version of Python `str.strip()`: drop whitespace from
the front, then from the back. -/
def stripChars (l : List Char) : List Char :=
  (((l.dropWhile isPyWs).reverse.dropWhile isPyWs)).reverse

/-- Python `str.strip()`. -/
def pyStrip (s : String) : String :=
  ⟨stripChars s.data⟩

/-- Front half of `stripChars`: drop leading whitespace. -/
def wsF (l : List Char) : List Char :=
  l.dropWhile isPyWs

/-- Back half of `stripChars`: drop trailing whitespace. -/
def wsB (l : List Char) : List Char :=
  (l.reverse.dropWhile isPyWs).reverse

/-- Escape of a string for JSON output (backslash and double quote;
enough for the canonical-serialization facts proved below). -/
def jsonEscape (s : String) : String :=
  ⟨s.data.foldr (fun c acc =>
    if c = '\x5c' then '\x5c' :: '\x5c' :: acc
    else if c = '\x22' then '\x5c' :: '\x22' :: acc
    else c :: acc) []⟩

/-- Model of Python `json.dumps` with its default separators. -/
def jsonDumps : Value → String
  | .null => "null"
  | .str s => "\x22" ++ jsonEscape s ++ "\x22"
  | .num n => toString n
  | .list vs => "[" ++ String.intercalate ", " (vs.attach.map (fun v => jsonDumps v.1)) ++ "]"
  | .dict kvs => "\x7b" ++
      String.intercalate ", "
        (kvs.attach.map (fun p =>
          "\x22" ++ jsonEscape p.1.1 ++ "\x22: " ++ jsonDumps p.1.2)) ++
      "\x7d"
decreasing_by
  · have h := List.sizeOf_lt_of_mem v.2
    simp only [Value.list.sizeOf_spec]
    omega
  · have h := List.sizeOf_lt_of_mem p.2
    obtain ⟨⟨a, b⟩, hp⟩ := p
    simp only [Prod.mk.sizeOf_spec] at h
    simp only [Value.dict.sizeOf_spec]
    omega

/-- Python `v in [None, descr, emptyList]` test used by `normalize_data`
(line 129 of `base_scraper.py`): equality with `None`, `''` or `[]`.
Note `{} == []` is `False` in Python, so an empty dict is not empty here. -/
def isEmptyVal : Value → Bool
  | .null => true
  | .str s => s = ""
  | .list vs => vs.isEmpty
  | _ => false

/-- The in-place value rewrite of `normalize_data` (lines 132-136):
strings are stripped, lists and dicts are serialized with `json.dumps`. -/
def transformValue : Value → Value
  | .str s => .str (pyStrip s)
  | .list vs => .str (jsonDumps (.list vs))
  | .dict kvs => .str (jsonDumps (.dict kvs))
  | v => v

/-- One iteration of the `for item in data` loop of
`BaseScraper.normalize_data`: filter out empty values, then transform the
remaining values in place (order preserved). -/
def cleanItem (item : Rec) : Rec :=
  (item.filter (fun p => !isEmptyVal p.2)).map (fun p => (p.1, transformValue p.2))

/-- `BaseScraper.normalize_data` (lines 124-140 of `base_scraper.py`):
builds one cleaned item per input item, in input order. -/
def normalize_data (data : List Rec) : List Rec :=
  data.map cleanItem

/-! ### Fetch Client (`BaseScraper.fetch_url`, lines 66-86)

The transport is embedded as a function from the 0-indexed attempt number
to the behaviour of `session.request` on that attempt: either an HTTP
status with a body, or a raised exception.  `random.random()` is embedded
as an explicit jitter function of the attempt number.  `fetch_url` returns
the optional body together with the number of attempts actually made and
the list of backoff sleeps, in order. -/

/-- Behaviour of the transport on one attempt: an HTTP response with a
status code and body, or an exception raised during the request. -/
inductive FetchResponse where
  | status : Nat → String → FetchResponse
  | exn : String → FetchResponse
deriving DecidableEq

/-- The attempt loop of `fetch_url`, at current attempt index `a` with
`r` loop iterations remaining.  Returns (optional body, attempts made,
backoff sleeps in seconds, in order). -/
def fetchGo (transport : Nat → FetchResponse) (jitter : Nat → ℚ) :
    Nat → Nat → Option String × Nat × List ℚ
  | _, 0 => (none, 0, [])
  | a, r + 1 =>
    match transport a with
    | .status code body =>
      if code = 200 then (some body, 1, [])
      else if code = 429 then
        let w : ℚ := 2 ^ a + jitter a
        let rest := fetchGo transport jitter (a + 1) r
        (rest.1, rest.2.1 + 1, w :: rest.2.2)
      else
        let rest := fetchGo transport jitter (a + 1) r
        (rest.1, rest.2.1 + 1, rest.2.2)
    | .exn _ =>
      if r = 0 then (none, 1, [])
      else
        let w : ℚ := 2 ^ a + jitter a
        let rest := fetchGo transport jitter (a + 1) r
        (rest.1, rest.2.1 + 1, w :: rest.2.2)

/-- `BaseScraper.fetch_url`: `for attempt in range(retry_attempts)` with
status 200 returning the body, status 429 sleeping `2**attempt +
random.random()` then retrying, other statuses logged and retried without
the backoff sleep, and exceptions returning `None` on the final attempt
and otherwise sleeping `2**attempt + random.random()` before retrying;
`None` after exhaustion. -/
def fetch_url (retryAttempts : Nat) (transport : Nat → FetchResponse)
    (jitter : Nat → ℚ) : Option String × Nat × List ℚ :=
  fetchGo transport jitter 0 retryAttempts

/-! ### Orchestrator (`ScrapingOrchestrator`, lines 142-183)

A registered scraper is embedded by the outcomes of its four effectful
steps (`initialize`, `scrape`, `save_data`, `close`); records are kept
polymorphic.  The registry `self.scrapers` is an insertion-ordered
mapping, embedded as an association list. -/

/-- A Source as consumed by `ScrapingOrchestrator._run_single_scraper`:
the outcome of each of its effectful steps. -/
structure Scraper (α : Type) where
  init : Except String Unit
  scrape : Except String (List α)
  save : Except String Unit
  close : Except String Unit

/-- One entry of the orchestrator's consolidated result mapping:
`{'data': ..., 'error': ...}`. -/
structure RunResult (α : Type) where
  data : List α
  error : Option String
deriving DecidableEq

/-- Value computed by the `try` body of `_run_single_scraper`: the scraped
records when `initialize`, `scrape` and `save_data` all succeed, and `[]`
when any of them raises (the `except` branch returns `[]`). -/
def scrapeBody {α : Type} (s : Scraper α) : List α :=
  match s.init with
  | .error _ => []
  | .ok _ =>
    match s.scrape with
    | .error _ => []
    | .ok d =>
      match s.save with
      | .error _ => []
      | .ok _ => d

/-- `ScrapingOrchestrator._run_single_scraper` (lines 172-183): the `try`
body's value (with all exceptions swallowed into `[]`), except that an
exception raised by `scraper.close()` in the `finally` block replaces the
result and propagates to the caller. -/
def runSingleScraper {α : Type} (s : Scraper α) : Except String (List α) :=
  match s.close with
  | .error e => .error e
  | .ok _ => .ok (scrapeBody s)

/-- Lookup in the registry `self.scrapers` (`name in self.scrapers`). -/
def lookupScraper {α : Type} (scrapers : List (String × Scraper α))
    (n : String) : Option (Scraper α) :=
  (scrapers.find? (fun p => p.1 = n)).map (fun p => p.2)

/-- The task list built by `run_scrapers` (lines 156-159): one task per
requested name that is present in the registry. -/
def orchestratorTasks {α : Type} (scrapers : List (String × Scraper α))
    (scraperNames : List String) : List (Scraper α) :=
  scraperNames.filterMap (lookupScraper scrapers)

/-- `ScrapingOrchestrator.run_scrapers` (lines 151-170): gather all tasks
with `return_exceptions=True`, then zip the requested names with the
results, mapping an exception to `{'error': str(result), 'data': []}` and
a value to `{'data': result, 'error': None}`.  (Note the zip pairs the
full name list with the possibly shorter task list, exactly as the source
does.) -/
def run_scrapers {α : Type} (scrapers : List (String × Scraper α))
    (scraperNames : List String) : List (String × RunResult α) :=
  let results := (orchestratorTasks scrapers scraperNames).map runSingleScraper
  (scraperNames.zip results).map (fun p =>
    match p.2 with
    | .error e => (p.1, ⟨[], some e⟩)
    | .ok d => (p.1, ⟨d, none⟩))

/-! ### Event-loop model for `asyncio.gather`

`run_scrapers` hands its whole task list to `asyncio.gather(*tasks, ...)`
in one call.  The event loop may start any created task that is still
pending and may finish any task that is running; `run_scrapers` performs
no admission control before launching a task (it acquires no semaphore and
never reads `config.max_concurrent`), so the step relation below carries
no guard on the number of running tasks. -/

/-- Scheduling phase of one gathered task. -/
inductive TaskPhase where
  | pending : TaskPhase
  | running : TaskPhase
  | finished : TaskPhase
deriving DecidableEq

/-- One event-loop step over the tasks passed to `asyncio.gather` by
`run_scrapers`: start a pending task (unguarded) or finish a running one. -/
inductive GatherStep : List TaskPhase → List TaskPhase → Prop
  | start (i : Nat) (s : List TaskPhase) (h : s.get? i = some .pending) :
      GatherStep s (s.set i .running)
  | finish (i : Nat) (s : List TaskPhase) (h : s.get? i = some .running) :
      GatherStep s (s.set i .finished)

/-- States the event loop can reach from `init` by `GatherStep` steps. -/
inductive GatherReachable (start : List TaskPhase) : List TaskPhase → Prop
  | refl : GatherReachable start start
  | tail {s t : List TaskPhase} :
      GatherReachable start s → GatherStep s t → GatherReachable start t

/-- Number of Source invocations simultaneously in flight. -/
def inFlightCount (s : List TaskPhase) : Nat :=
  (s.filter (fun p => p = TaskPhase.running)).length

/-- `ScrapingConfig` (lines 18-25 of `base_scraper.py`). -/
structure ScrapingConfig where
  max_concurrent : Nat := 5
  request_delay : ℚ := 1
  timeout : Nat := 30
  retry_attempts : Nat := 3
  respect_robots_txt : Bool := true
  user_agents : Option (List String) := none

/-! ### Run history (`ComprehensiveScrapingManager`, `scraping_manager.py`)

`datetime.now().isoformat()` is embedded as an explicit timestamp
parameter.  A category's scraped result is either a list of records or
some non-list value (the `jobs` category, for instance, produces a dict),
which is all `update_scraping_history` distinguishes via
`isinstance(data, list)`. -/

/-- One category's value in the `results` dict handed to
`update_scraping_history`: a list of records, or any non-list value. -/
inductive CatResult (α : Type) where
  | items : List α → CatResult α
  | nonList : CatResult α
deriving DecidableEq

/-- A value of the `results_summary` mapping: an item count for a
list-valued category, or the literal string `'multiple'` otherwise. -/
inductive SummaryVal where
  | count : Nat → SummaryVal
  | marker : String → SummaryVal
deriving DecidableEq

/-- A run-history entry (lines 87-97 of `scraping_manager.py`). -/
structure HistoryEntry where
  timestamp : String
  results_summary : List (String × SummaryVal)
  total_items : Nat
deriving DecidableEq

/-- The `history_entry` dict literal of `update_scraping_history`:
`len(data)` per list-valued category and `'multiple'` otherwise in
`results_summary`; `total_items` sums `len(data)` over list-valued
categories and contributes `0` for the rest. -/
def mkHistoryEntry {α : Type} (now : String)
    (results : List (String × CatResult α)) : HistoryEntry where
  timestamp := now
  results_summary := results.map (fun p =>
    (p.1, match p.2 with
          | .items rs => .count rs.length
          | .nonList => .marker "multiple"))
  total_items := (results.map (fun p =>
    match p.2 with
    | .items rs => rs.length
    | .nonList => 0)).sum

/-- The append-and-truncate step of `update_scraping_history` (lines
99-103): append the entry, then keep only `self.scraping_history[-100:]`
when the length exceeds 100. -/
def pushHistory (history : List HistoryEntry) (e : HistoryEntry) :
    List HistoryEntry :=
  if 100 < (history ++ [e]).length then
    (history ++ [e]).drop ((history ++ [e]).length - 100)
  else history ++ [e]

/-- `ComprehensiveScrapingManager.update_scraping_history` (lines 85-103). -/
def update_scraping_history {α : Type} (history : List HistoryEntry)
    (now : String) (results : List (String × CatResult α)) :
    List HistoryEntry :=
  pushHistory history (mkHistoryEntry now results)

/-! ### Scheduler (`ComprehensiveScrapingManager.schedule_scraping`,
lines 105-116)

The loop body logs through `self.logger` on both paths
(`self.logger.info` on line 110 after a successful run,
`self.logger.error` on line 115 in the `except Exception` handler), but
`ComprehensiveScrapingManager.__init__` (lines 11-30) assigns only
`config`, `scrapers` and `scraping_history`, and `scraping_manager.py`
never imports `logging`, so every `self.logger` access raises
`AttributeError`.  The embedding therefore makes the presence of the
`logger` attribute explicit; an exception raised by the `except`
handler itself is caught by nothing and escapes the `while True`
loop, terminating `schedule_scraping`. -/

/-- Whether the manager object carries a `logger` attribute:
`ComprehensiveScrapingManager.__init__` never assigns one, so
`self.logger` raises `AttributeError`. -/
def managerHasLogger : Bool := false

/-- One iteration of the `while True` body of `schedule_scraping`:
`.ok s` when the iteration completes (sleeping `s` seconds) and the
loop continues to the next one, `.error e` when an exception escapes
the iteration and terminates the loop.  The `try` body is the full run,
then `self.logger.info`, then the `interval_minutes * 60` sleep; the
`except Exception` handler is `self.logger.error`, then the 300-second
sleep.  With the `logger` attribute missing, the success path's `info`
call raises `AttributeError` (caught by the handler) and the handler's
own `error` call raises `AttributeError` uncaught. -/
def scheduleIter (hasLogger : Bool) (intervalMinutes : Nat)
    (outcome : Except String Unit) : Except String Nat :=
  match outcome with
  | .ok _ =>
    if hasLogger then .ok (intervalMinutes * 60)
    else .error "AttributeError: logger"
  | .error _ =>
    if hasLogger then .ok 300
    else .error "AttributeError: logger"

/-- `schedule_scraping` as a trace over iterations: `.ok s` when the
loop is still running and its n-th iteration ended with an `s`-second
sleep, `.error e` once some iteration at or before `n` let an exception
escape, terminating the loop (and the coroutine). -/
def schedule_scraping (hasLogger : Bool) (intervalMinutes : Nat)
    (runOutcomes : Nat → Except String Unit) : Nat → Except String Nat
  | 0 => scheduleIter hasLogger intervalMinutes (runOutcomes 0)
  | n + 1 =>
    match schedule_scraping hasLogger intervalMinutes runOutcomes n with
    | .error e => .error e
    | .ok _ => scheduleIter hasLogger intervalMinutes (runOutcomes (n + 1))

/-! ### Job ranking (`JobScrapingManager.rank_jobs`, `job_scrapers.py`
lines 251-285)

A job record is embedded by the fields the ranking reads: `job['title']`
(mandatory — the code indexes it directly), `job.get('summary', '')` and
the optional `job['posted_date']`.  `datetime.now()` is an explicit
parameter, counted in whole days; `datetime.fromisoformat` is embedded
for date-only ISO strings (`YYYY-MM-DD`), mapping a valid calendar date
to its day number and anything else to `none` (the bare `except` then
contributes no bonus). -/

/-- Python `str.lower()` (ASCII case folding). -/
def pyLower (s : String) : String :=
  ⟨s.data.map Char.toLower⟩

/-- Whether `n` is a prefix of `h` (character lists). -/
def startsWithB (n h : List Char) : Bool :=
  match n, h with
  | [], _ => true
  | _ :: _, [] => false
  | a :: as, b :: bs => a = b && startsWithB as bs

/-- Whether `n` occurs contiguously inside `h` (character lists). -/
def infixB (n h : List Char) : Bool :=
  match h with
  | [] => n.isEmpty
  | _ :: t => startsWithB n h || infixB n t

/-- Python `needle in hay` for strings: substring containment. -/
def pyIn (needle hay : String) : Bool :=
  infixB needle.data hay.data

/-- Python `str.split()` with no argument: split on whitespace runs,
discarding empty pieces. -/
def splitWs (l : List Char) : List (List Char)  :=
  match l with
  | [] => []
  | c :: cs =>
    if isPyWs c then splitWs cs
    else
      List.takeWhile (fun x => !isPyWs x) (c :: cs) ::
        splitWs (List.dropWhile (fun x => !isPyWs x) (c :: cs))
termination_by l.length
decreasing_by
  · simp only [List.length_cons]; omega
  · rename_i hc
    rename_i x
    have h1 : List.dropWhile (fun v => !isPyWs v) (x :: t)
        = List.dropWhile (fun v => !isPyWs v) t := by
      simp [List.dropWhile, hc]
    rw [h1]
    have h2 := (List.dropWhile_sublist (l := t) (fun v => !isPyWs v)).length_le
    simp only [List.length_cons]
    omega

/-- Python `str.split()` on strings. -/
def pySplit (s : String) : List String :=
  (splitWs s.data).map (fun w => ⟨w⟩)

/-- Decimal digit value of a character, when it is a digit. -/
def digitVal (c : Char) : Option Nat :=
  if c.isDigit then some (c.toNat - 48) else none

/-- Gregorian leap year. -/
def isLeap (y : Nat) : Bool :=
  y % 4 = 0 && (y % 100 ≠ 0 || y % 400 = 0)

/-- Days in a month of a given year. -/
def daysInMonth (y m : Nat) : Nat :=
  if m = 2 then (if isLeap y then 29 else 28)
  else if m = 4 || m = 6 || m = 9 || m = 11 then 30
  else 31

/-- Day number of a civil date (days since 1970-01-01), for year ≥ 1
(`datetime` years are 1..9999, all nonnegative). -/
def daysFromCivil (y m d : Nat) : Int :=
  let y2 := if m ≤ 2 then y - 1 else y
  let era := y2 / 400
  let yoe := y2 - era * 400
  let mp := (m + 9) % 12
  let doy := (153 * mp + 2) / 5 + d - 1
  let doe := yoe * 365 + yoe / 4 - yoe / 100 + doy
  (((era * 146097 + doe : Nat) : Int)) - 719468

/-- Model of `datetime.fromisoformat` restricted to date-only strings:
parses `YYYY-MM-DD` with a valid calendar date to its day number, and
returns `none` (a raised `ValueError` in Python) on anything else. -/
def pyFromIso (s : String) : Option Int :=
  match s.data with
  | [y1, y2, y3, y4, s1, m1, m2, s2, d1, d2] =>
    if s1 = '-' && s2 = '-' then
      match digitVal y1, digitVal y2, digitVal y3, digitVal y4,
            digitVal m1, digitVal m2, digitVal d1, digitVal d2 with
      | some a, some b, some c, some d, some e, some f, some g, some h =>
        let yr := ((a * 10 + b) * 10 + c) * 10 + d
        let mo := e * 10 + f
        let dy := g * 10 + h
        if 1 ≤ yr && 1 ≤ mo && mo ≤ 12 && 1 ≤ dy && dy ≤ daysInMonth yr mo
        then some (daysFromCivil yr mo dy)
        else none
      | _, _, _, _, _, _, _, _ => none
    else none
  | _ => none

/-- The `posted_date.replace('Z', '+00:00')` preprocessing. -/
def pyReplaceZ (s : String) : String :=
  s.replace "Z" "+00:00"

/-- A job record, restricted to the fields `rank_jobs` reads. -/
structure Job where
  title : String
  summary : Option String
  posted_date : Option String
deriving DecidableEq

/-- A job with the `relevance_score` field added by `rank_jobs`. -/
structure ScoredJob where
  job : Job
  relevance_score : Nat
deriving DecidableEq

/-- The recency branch of `rank_jobs` (lines 270-279): parse
`posted_date`, add 5 when it is at most 1 day old and 2 when at most 7;
the bare `except: pass` turns an absent or unparseable date into 0. -/
def recencyBonus (nowDay : Int) (posted : Option String) : Nat :=
  match posted with
  | none => 0
  | some ds =>
    match pyFromIso (pyReplaceZ ds) with
    | none => 0
    | some d =>
      if nowDay - d ≤ 1 then 5
      else if nowDay - d ≤ 7 then 2
      else 0

/-- The score assigned to one job by `rank_jobs` (lines 255-279): +10 on
a verbatim case-insensitive query match in the title, then the word loop
(+3 per query word in the title, +1 per query word in the summary), then
the recency bonus. -/
def scoreJob (nowDay : Int) (query : String) (j : Job) : Nat :=
  let base := if pyIn (pyLower query) (pyLower j.title) then 10 else 0
  let afterWords := (pySplit (pyLower query)).foldl (fun acc w =>
    (acc + (if pyIn w (pyLower j.title) then 3 else 0))
      + (if pyIn w (pyLower (j.summary.getD "")) then 1 else 0)) base
  afterWords + recencyBonus nowDay j.posted_date

/-- The comparison realized by `sorted(..., key=lambda x:
x['relevance_score'], reverse=True)`: `a` may come before `b` when `a`'s
score is at least `b`'s. -/
def rankLE (a b : ScoredJob) : Bool :=
  decide (b.relevance_score ≤ a.relevance_score)

/-- `JobScrapingManager.rank_jobs` (lines 251-285): score every job, then
`sorted(..., key=lambda x: x['relevance_score'], reverse=True)` — a
stable descending sort on the score (Python's `sorted` is specified as
stable; `reverse=True` preserves the original order of ties). -/
def rank_jobs (nowDay : Int) (jobs : List Job) (query : String) :
    List ScoredJob :=
  let scored := jobs.map (fun j => ScoredJob.mk j (scoreJob nowDay query j))
  scored.mergeSort rankLE

/-- Modelled from the spec: the relevance score exactly as the claim
words it — +10 for a verbatim case-insensitive query occurrence in the
title, +3 for each query word found in the title, +1 for each query word
found in the summary field, +5 when `posted_date` is within 1 day and +2
when within 7 days, and 0 from an absent or unparseable `posted_date`. -/
def specRelevance (nowDay : Int) (query : String) (j : Job) : Nat :=
  (if pyIn (pyLower query) (pyLower j.title) then 10 else 0)
    + 3 * ((pySplit (pyLower query)).countP (fun w => pyIn w (pyLower j.title)))
    + 1 * ((pySplit (pyLower query)).countP
        (fun w => pyIn w (pyLower (j.summary.getD ""))))
    + recencyBonus nowDay j.posted_date

/-! ### Spec-side definitions and concrete instances used by the
theorems below -/

/-- Whether a transport response is a status-200 response. -/
def is200 : FetchResponse → Bool
  | .status code _ => code = 200
  | .exn _ => false

/-- Whether a scraper's `close()` succeeds. -/
def closeOk {α : Type} (s : Scraper α) : Bool :=
  match s.close with
  | .ok _ => true
  | .error _ => false

/-- The result-mapping entry the amended isolation claim predicts for one
requested name: the scraper's `try`-body value with a null error. -/
def expectedEntry {α : Type} (scrapers : List (String × Scraper α))
    (n : String) : String × RunResult α :=
  (n, match lookupScraper scrapers n with
      | some s => ⟨scrapeBody s, none⟩
      | none => ⟨[], none⟩)

/-- Modelled from the spec: the value of one `results_summary` entry as
§3 words it, extended by the `'multiple'` marker the code emits for a
non-list result. -/
def specSummaryVal {α : Type} : CatResult α → SummaryVal
  | .items rs => .count rs.length
  | .nonList => .marker "multiple"

/-- The record count of a list-valued category (`none` for a non-list
result, which contributes nothing to `total_items`). -/
def specListCount {α : Type} : CatResult α → Option Nat
  | .items rs => some rs.length
  | .nonList => none

/-- A record value on which normalization cannot re-create an empty
value: any string field either is already empty or does not strip to
empty. -/
def stripSafe : Value → Bool
  | .str s => !(pyStrip s == "") || (s == "")
  | _ => true

/-- Initial `asyncio.gather` state: every created task is pending. -/
def gatherStart (numTasks : Nat) : List TaskPhase :=
  List.replicate numTasks .pending

/-- A registry of two scrapers, one of which always fails in `scrape`. -/
def scrapersDemo : List (String × Scraper Nat) :=
  [("good", ⟨.ok (), .ok [1, 2, 3], .ok (), .ok ()⟩),
   ("bad", ⟨.ok (), .error "boom", .ok (), .ok ()⟩)]

/-- A registry of three trivially succeeding scrapers. -/
def scrapersThree : List (String × Scraper Nat) :=
  [("jobs", ⟨.ok (), .ok [], .ok (), .ok ()⟩),
   ("financial", ⟨.ok (), .ok [], .ok (), .ok ()⟩),
   ("odds", ⟨.ok (), .ok [], .ok (), .ok ()⟩)]

/-- A configuration whose concurrency cap is 2. -/
def demoConfig : ScrapingConfig :=
  { max_concurrent := 2 }

/-- Transport answering 429, 429, then 200 with body `"ok"`. -/
def tDemo : Nat → FetchResponse := fun a =>
  if a ≤ 1 then .status 429 "slow down" else .status 200 "ok"

/-- A concrete jitter draw of one half per attempt. -/
def jDemo : Nat → ℚ := fun _ => 1 / 2

/-- A simple distinct history entry. -/
def demoEntry (i : Nat) : HistoryEntry :=
  ⟨toString i, [], i⟩

/-- `n` distinct history entries, in insertion order. -/
def demoEntries (n : Nat) : List HistoryEntry :=
  (List.range n).map demoEntry

/-- Two concrete records for the normalization witnesses. -/
def demoData : List Rec :=
  [[("a", Value.null)], [("b", Value.str " x ")]]

/-- Concrete records on which normalization is idempotent. -/
def demoClean : List Rec :=
  [[("a", Value.str " x "), ("b", Value.num 3),
    ("c", Value.list [Value.num 1])]]

/-! ## Helper lemmas -/

theorem pushHistory_le (h : List HistoryEntry) (e : HistoryEntry)
    (hh : h.length ≤ 100) : (pushHistory h e).length ≤ 100 := by
  unfold pushHistory
  split
  · simp only [List.length_drop]
    omega
  · rename_i hc
    simp only [List.length_append, List.length_cons, List.length_nil] at hc ⊢
    omega

theorem pushHistory_eq_drop (h : List HistoryEntry) (e : HistoryEntry)
    (hh : h.length ≤ 100) :
    pushHistory h e = (h ++ [e]).drop (h.length + 1 - 100) := by
  unfold pushHistory
  by_cases hc : 100 < (h ++ [e]).length
  · rw [if_pos hc]
    congr 1
    simp
  · rw [if_neg hc]
    simp only [List.length_append, List.length_cons, List.length_nil] at hc
    have h0 : h.length + 1 - 100 = 0 := by omega
    rw [h0, List.drop_zero]

theorem foldl_pushHistory :
    ∀ (l h : List HistoryEntry), h.length ≤ 100 →
      l.foldl pushHistory h = (h ++ l).drop (h.length + l.length - 100) := by
  intro l
  induction l with
  | nil =>
    intro h hh
    simp only [List.foldl_nil, List.append_nil, List.length_nil]
    have h0 : h.length + 0 - 100 = 0 := by omega
    rw [h0, List.drop_zero]
  | cons e l ih =>
    intro h hh
    rw [List.foldl_cons, ih _ (pushHistory_le h e hh),
      pushHistory_eq_drop h e hh]
    have hd1 : h.length + 1 - 100 ≤ (h ++ [e]).length := by
      simp only [List.length_append, List.length_cons, List.length_nil]
      omega
    rw [← List.drop_append_of_le_length hd1, List.drop_drop,
      List.append_assoc, List.singleton_append]
    congr 1
    simp only [List.length_drop, List.length_append, List.length_cons,
      List.length_nil]
    omega

theorem fetchGo_succ_eq (t : Nat → FetchResponse) (j : Nat → ℚ) (a r : Nat) :
    fetchGo t j a (r + 1) =
      match t a with
      | .status code body =>
        if code = 200 then (some body, 1, [])
        else if code = 429 then
          ((fetchGo t j (a + 1) r).1, (fetchGo t j (a + 1) r).2.1 + 1,
            ((2 : ℚ) ^ a + j a) :: (fetchGo t j (a + 1) r).2.2)
        else
          ((fetchGo t j (a + 1) r).1, (fetchGo t j (a + 1) r).2.1 + 1,
            (fetchGo t j (a + 1) r).2.2)
      | .exn _ =>
        if r = 0 then (none, 1, [])
        else
          ((fetchGo t j (a + 1) r).1, (fetchGo t j (a + 1) r).2.1 + 1,
            ((2 : ℚ) ^ a + j a) :: (fetchGo t j (a + 1) r).2.2) := rfl

theorem fetchGo_fst_none_iff (t : Nat → FetchResponse) (j : Nat → ℚ) :
    ∀ (r a : Nat),
      (fetchGo t j a r).1 = none ↔ ∀ i, i < r → is200 (t (a + i)) = false := by
  intro r
  induction r with
  | zero => intro a; simp [fetchGo]
  | succ r ih =>
    intro a
    have shift : (∀ i, i < r + 1 → is200 (t (a + i)) = false) ↔
        (is200 (t a) = false ∧ ∀ i, i < r → is200 (t (a + 1 + i)) = false) := by
      constructor
      · intro hall
        refine ⟨by simpa using hall 0 (by omega), fun i hi => ?_⟩
        have := hall (i + 1) (by omega)
        simpa [Nat.add_assoc, Nat.add_comm 1 i] using this
      · rintro ⟨h0, hrest⟩ i hi
        cases i with
        | zero => simpa using h0
        | succ i =>
          have := hrest i (by omega)
          simpa [Nat.add_assoc, Nat.add_comm 1 i] using this
    rw [fetchGo_succ_eq, shift]
    cases ht : t a with
    | status code body =>
      by_cases h200 : code = 200
      · simp [h200, is200, ht]
      · by_cases h429 : code = 429 <;>
          simp [h200, h429, is200, ht, ih (a + 1)]
    | exn msg =>
      by_cases hr : r = 0
      · subst hr
        simp [is200, ht]
      · simp [hr, is200, ht, ih (a + 1)]

theorem fetchGo_fst_some_iff (t : Nat → FetchResponse) (j : Nat → ℚ) :
    ∀ (r a : Nat) (b : String),
      (fetchGo t j a r).1 = some b ↔
        ∃ i, i < r ∧ t (a + i) = .status 200 b ∧
          ∀ k, k < i → is200 (t (a + k)) = false := by
  intro r
  induction r with
  | zero => intro a b; simp [fetchGo]
  | succ r ih =>
    intro a b
    have shift : (∃ i, i < r + 1 ∧ t (a + i) = .status 200 b ∧
          ∀ k, k < i → is200 (t (a + k)) = false) ↔
        (t a = .status 200 b ∨
          (is200 (t a) = false ∧ ∃ i, i < r ∧ t (a + 1 + i) = .status 200 b ∧
            ∀ k, k < i → is200 (t (a + 1 + k)) = false)) := by
      constructor
      · rintro ⟨i, hi, hti, hk⟩
        cases i with
        | zero => exact Or.inl (by simpa using hti)
        | succ i =>
          refine Or.inr ⟨by simpa using hk 0 (by omega),
            i, by omega, ?_, fun k hki => ?_⟩
          · simpa [Nat.add_assoc, Nat.add_comm 1 i] using hti
          · have := hk (k + 1) (by omega)
            simpa [Nat.add_assoc, Nat.add_comm 1 k] using this
      · rintro (h1 | ⟨h0, i, hi, hti, hk⟩)
        · exact ⟨0, by omega, by simpa using h1, by omega⟩
        · refine ⟨i + 1, by omega, ?_, fun k hki => ?_⟩
          · simpa [Nat.add_assoc, Nat.add_comm 1 i] using hti
          · cases k with
            | zero => simpa using h0
            | succ k =>
              have := hk k (by omega)
              simpa [Nat.add_assoc, Nat.add_comm 1 k] using this
    rw [fetchGo_succ_eq, shift]
    cases ht : t a with
    | status code body =>
      by_cases h200 : code = 200
      · subst h200
        simp [is200]
      · by_cases h429 : code = 429 <;>
          simp [h200, h429, is200, ih (a + 1)]
    | exn msg =>
      by_cases hr : r = 0
      · subst hr
        simp [is200]
      · simp [hr, is200, ih (a + 1)]

theorem dropWhile_idem (p : Char → Bool) :
    ∀ l : List Char, (l.dropWhile p).dropWhile p = l.dropWhile p := by
  intro l
  induction l with
  | nil => rfl
  | cons a t ih =>
    by_cases ha : p a
    · rw [List.dropWhile_cons_of_pos ha, ih]
    · rw [List.dropWhile_cons_of_neg ha, List.dropWhile_cons_of_neg ha]

theorem stripChars_eq_wsB_wsF (l : List Char) :
    stripChars l = wsB (wsF l) := rfl

theorem wsB_prefixOf (l : List Char) : wsB l <+: l := by
  have h : (wsB l).reverse <:+ l.reverse := by
    unfold wsB
    rw [List.reverse_reverse]
    exact List.dropWhile_suffix isPyWs
  exact List.reverse_suffix.mp h

theorem wsB_idem (l : List Char) : wsB (wsB l) = wsB l := by
  unfold wsB
  rw [List.reverse_reverse, dropWhile_idem]

theorem wsF_head_not {l : List Char} {a : Char} {t : List Char}
    (h : wsF l = a :: t) : isPyWs a = false := by
  have hh := List.head?_dropWhile_not isPyWs l
  rw [show l.dropWhile isPyWs = a :: t from h] at hh
  simpa using hh

theorem wsF_wsB_wsF (l : List Char) : wsF (wsB (wsF l)) = wsB (wsF l) := by
  cases hF : wsF l with
  | nil => simp [wsF, wsB]
  | cons a t =>
    have ha : isPyWs a = false := wsF_head_not hF
    cases hB : wsB (a :: t) with
    | nil => simp [wsF]
    | cons b u =>
      have hpre : wsB (a :: t) <+: a :: t := wsB_prefixOf _
      rw [hB] at hpre
      obtain ⟨r, hr⟩ := hpre
      rw [List.cons_append] at hr
      have hb : b = a := (List.cons.injEq _ _ _ _ ▸ hr).1
      rw [wsF, List.dropWhile_cons_of_neg (by rw [hb, ha]; simp)]

theorem stripChars_idem (l : List Char) :
    stripChars (stripChars l) = stripChars l := by
  rw [stripChars_eq_wsB_wsF, stripChars_eq_wsB_wsF, wsF_wsB_wsF, wsB_idem]

theorem pyStrip_idem (s : String) : pyStrip (pyStrip s) = pyStrip s := by
  unfold pyStrip
  exact congrArg String.mk (stripChars_idem s.data)

theorem wsB_of_last_not {x : List Char}
    (hx : x.reverse.dropWhile isPyWs = x.reverse) : wsB x = x := by
  unfold wsB
  rw [hx, List.reverse_reverse]

theorem stripChars_bounded {c d : Char} (mid : List Char)
    (hc : isPyWs c = false) (hd : isPyWs d = false) :
    stripChars (c :: (mid ++ [d])) = c :: (mid ++ [d]) := by
  rw [stripChars_eq_wsB_wsF]
  have hF : wsF (c :: (mid ++ [d])) = c :: (mid ++ [d]) := by
    rw [wsF, List.dropWhile_cons_of_neg (by simp [hc])]
  rw [hF]
  apply wsB_of_last_not
  rw [List.reverse_cons, List.reverse_append]
  simp only [List.reverse_cons, List.reverse_nil, List.nil_append,
    List.cons_append]
  rw [List.dropWhile_cons_of_neg (by simp [hd])]

theorem foldl_add_ifs (A B : String → Bool) :
    ∀ (ws : List String) (init : Nat),
      ws.foldl (fun acc w =>
        (acc + (if A w then 3 else 0)) + (if B w then 1 else 0)) init
        = init + 3 * ws.countP A + 1 * ws.countP B := by
  intro ws
  induction ws with
  | nil => intro init; simp
  | cons w ws ih =>
    intro init
    rw [List.foldl_cons, ih, List.countP_cons, List.countP_cons]
    by_cases hA : A w <;> by_cases hB : B w <;> simp [hA, hB] <;> try ring

theorem scoreJob_eq_spec (nowDay : Int) (query : String) (j : Job) :
    scoreJob nowDay query j = specRelevance nowDay query j := by
  simp only [scoreJob, specRelevance]
  rw [foldl_add_ifs]

theorem rankLE_trans :
    ∀ a b c : ScoredJob, rankLE a b → rankLE b c → rankLE a c := by
  intro a b c hab hbc
  simp only [rankLE, decide_eq_true_eq] at *
  omega

theorem rankLE_total : ∀ a b : ScoredJob, rankLE a b || rankLE b a := by
  intro a b
  simp only [rankLE, Bool.or_eq_true, decide_eq_true_eq]
  omega

theorem jsonDumps_list_shape (vs : List Value) :
    ∃ mid : List Char,
      (jsonDumps (Value.list vs)).data = '[' :: (mid ++ [']']) := by
  refine ⟨(String.intercalate ", "
    (vs.attach.map fun v => jsonDumps v.1)).data, ?_⟩
  simp only [jsonDumps, String.data_append]
  rfl

theorem jsonDumps_dict_shape (kvs : List (String × Value)) :
    ∃ mid : List Char,
      (jsonDumps (Value.dict kvs)).data = '\x7b' :: (mid ++ ['\x7d']) := by
  refine ⟨(String.intercalate ", "
    (kvs.attach.map fun p =>
      "\x22" ++ jsonEscape p.1.1 ++ "\x22: " ++ jsonDumps p.1.2)).data, ?_⟩
  simp only [jsonDumps, String.data_append]
  rfl

theorem jsonDumps_list_strip (vs : List Value) :
    pyStrip (jsonDumps (Value.list vs)) = jsonDumps (Value.list vs) := by
  obtain ⟨mid, hm⟩ := jsonDumps_list_shape vs
  apply String.ext
  show stripChars (jsonDumps (Value.list vs)).data
    = (jsonDumps (Value.list vs)).data
  rw [hm]
  exact stripChars_bounded mid (by decide) (by decide)

theorem jsonDumps_dict_strip (kvs : List (String × Value)) :
    pyStrip (jsonDumps (Value.dict kvs)) = jsonDumps (Value.dict kvs) := by
  obtain ⟨mid, hm⟩ := jsonDumps_dict_shape kvs
  apply String.ext
  show stripChars (jsonDumps (Value.dict kvs)).data
    = (jsonDumps (Value.dict kvs)).data
  rw [hm]
  exact stripChars_bounded mid (by decide) (by decide)

theorem jsonDumps_list_ne (vs : List Value) :
    jsonDumps (Value.list vs) ≠ "" := by
  obtain ⟨mid, hm⟩ := jsonDumps_list_shape vs
  intro h
  have hd := congrArg String.data h
  rw [hm] at hd
  simp at hd

theorem jsonDumps_dict_ne (kvs : List (String × Value)) :
    jsonDumps (Value.dict kvs) ≠ "" := by
  obtain ⟨mid, hm⟩ := jsonDumps_dict_shape kvs
  intro h
  have hd := congrArg String.data h
  rw [hm] at hd
  simp at hd

theorem transformValue_idem {v : Value} (hv : isEmptyVal v = false)
    (hsafe : stripSafe v = true) :
    transformValue (transformValue v) = transformValue v ∧
    isEmptyVal (transformValue v) = false := by
  cases v with
  | null => simp [isEmptyVal] at hv
  | str s =>
    have hs : s ≠ "" := by simpa [isEmptyVal] using hv
    have hstrip : pyStrip s ≠ "" := by
      have := hsafe
      simp only [stripSafe, Bool.or_eq_true, Bool.not_eq_true',
        beq_iff_eq, beq_eq_false_iff_ne] at this
      rcases this with h1 | h2
      · exact h1
      · exact absurd h2 hs
    exact ⟨by simp [transformValue, pyStrip_idem],
      by simp [transformValue, isEmptyVal, hstrip]⟩
  | num n => exact ⟨rfl, rfl⟩
  | list vs =>
    exact ⟨by simp [transformValue, jsonDumps_list_strip],
      by simp [transformValue, isEmptyVal, jsonDumps_list_ne vs]⟩
  | dict kvs =>
    exact ⟨by simp [transformValue, jsonDumps_dict_strip],
      by simp [transformValue, isEmptyVal, jsonDumps_dict_ne kvs]⟩

theorem cleanItem_idem (item : Rec)
    (hsafe : ∀ p ∈ item, stripSafe p.2 = true) :
    cleanItem (cleanItem item) = cleanItem item := by
  unfold cleanItem
  have hkeep : ∀ q ∈ (item.filter fun p => !isEmptyVal p.2).map
      (fun p => (p.1, transformValue p.2)), (!isEmptyVal q.2) = true := by
    intro q hq
    rw [List.mem_map] at hq
    obtain ⟨p, hpmem, rfl⟩ := hq
    have hpf := List.of_mem_filter hpmem
    have hpmem2 := List.mem_of_mem_filter hpmem
    have hidem := (transformValue_idem (by simpa using hpf)
      (hsafe p hpmem2)).2
    simpa using hidem
  rw [List.filter_eq_self.mpr hkeep, List.map_map]
  apply List.map_congr_left
  intro p hp
  have hpf := List.of_mem_filter hp
  have hpmem2 := List.mem_of_mem_filter hp
  have hidem := (transformValue_idem (by simpa using hpf)
    (hsafe p hpmem2)).1
  simp [Function.comp, hidem]

theorem runSingleScraper_ok {α : Type} (s : Scraper α)
    (h : closeOk s = true) :
    runSingleScraper s = .ok (scrapeBody s) := by
  unfold closeOk at h
  unfold runSingleScraper
  cases hc : s.close with
  | error e => rw [hc] at h; simp at h
  | ok u => rfl

theorem lookupScraper_mem {α : Type} {scrapers : List (String × Scraper α)}
    {n : String} {s : Scraper α} (h : lookupScraper scrapers n = some s) :
    ∃ p, p ∈ scrapers ∧ p.2 = s := by
  unfold lookupScraper at h
  rw [Option.map_eq_some'] at h
  obtain ⟨p, hp, hps⟩ := h
  exact ⟨p, List.mem_of_find?_eq_some hp, hps⟩

theorem sum_counts_eq_sum_filterMap {α : Type} :
    ∀ l : List (String × CatResult α),
      (l.map (fun p =>
        match p.2 with
        | .items rs => rs.length
        | .nonList => 0)).sum
        = (l.filterMap (fun p => specListCount p.2)).sum := by
  intro l
  induction l with
  | nil => rfl
  | cons p rest ih =>
    cases hp : p.2 <;>
      simp [List.filterMap_cons, specListCount, hp, ih]

/-! ## Claim theorems -/

/-- C3: with `retry_attempts = 3` and a transport answering 429, 429,
then 200 with body `b`, `fetch_url` makes exactly 3 attempts, returns `b`
on the third with no further attempt, and before each retry after a 429
it waits `2^attempt + jitter attempt` seconds (0-indexed), each wait
lying in `[2^attempt, 2^attempt + 1)`. -/
theorem C3_fetch_retry (t : Nat → FetchResponse) (j : Nat → ℚ)
    (b x y : String)
    (h0 : t 0 = .status 429 x) (h1 : t 1 = .status 429 y)
    (h2 : t 2 = .status 200 b)
    (hj : ∀ a, 0 ≤ j a ∧ j a < 1) :
    fetch_url 3 t j = (some b, 3, [2 ^ 0 + j 0, 2 ^ 1 + j 1]) ∧
    (2 ^ 0 ≤ 2 ^ 0 + j 0 ∧ 2 ^ 0 + j 0 < 2 ^ 0 + 1) ∧
    (2 ^ 1 ≤ 2 ^ 1 + j 1 ∧ 2 ^ 1 + j 1 < 2 ^ 1 + 1) := by
  refine ⟨?_, ⟨by linarith [(hj 0).1], by linarith [(hj 0).2]⟩,
    ⟨by linarith [(hj 1).1], by linarith [(hj 1).2]⟩⟩
  show fetchGo t j 0 3 = _
  rw [show (3 : Nat) = 2 + 1 from rfl, fetchGo_succ_eq, h0]
  norm_num
  rw [show (2 : Nat) = 1 + 1 from rfl, fetchGo_succ_eq, h1]
  norm_num
  rw [show (1 : Nat) = 0 + 1 from rfl, fetchGo_succ_eq, h2]
  norm_num

/-- C3 witness: a concrete 429-429-200 transport with jitter one half
yields `(some "ok", 3, [3/2, 5/2])`. -/
theorem C3_fetch_retry_witness :
    fetch_url 3 tDemo jDemo = (some "ok", 3, [3 / 2, 5 / 2]) := by
  have h := (C3_fetch_retry tDemo jDemo "ok" "slow down" "slow down"
    rfl rfl rfl (fun a => by constructor <;> norm_num [jDemo])).1
  rw [h]
  norm_num [jDemo]

/-- C9: `fetch_url` is total at its interface — for every bound,
transport behaviour and jitter it returns `some b` exactly when some
attempt within the bound is the first to see a status-200 response (with
body `b`), and `none` exactly when no attempt within the bound sees a
status-200 response (exceptions and non-200 statuses on every attempt,
and exhausted retries, included). -/
theorem C9_fetch_total (n : Nat) (t : Nat → FetchResponse) (j : Nat → ℚ) :
    (∀ b : String, (fetch_url n t j).1 = some b ↔
      ∃ i, i < n ∧ t i = .status 200 b ∧
        ∀ k, k < i → is200 (t k) = false) ∧
    ((fetch_url n t j).1 = none ↔ ∀ i, i < n → is200 (t i) = false) := by
  constructor
  · intro b
    have h := fetchGo_fst_some_iff t j n 0 b
    simpa using h
  · have h := fetchGo_fst_none_iff t j n 0
    simpa using h

/-- C9 witness: on the concrete 429-429-200 transport the success case
of the characterization applies, and on an always-failing transport the
failure case applies. -/
theorem C9_fetch_total_witness :
    (fetch_url 3 tDemo jDemo).1 = some "ok" ∧
    (fetch_url 2 (fun _ => FetchResponse.exn "boom") jDemo).1 = none := by
  constructor
  · exact ((C9_fetch_total 3 tDemo jDemo).1 "ok").mpr
      ⟨2, by norm_num, by decide, by decide⟩
  · exact ((C9_fetch_total 2 (fun _ => FetchResponse.exn "boom") jDemo).2).mpr
      (fun i _ => by simp [is200])

/-- C1 counterexample: in a registry where the `bad` scraper always
raises in `scrape` (and cleanup succeeds), the orchestrator's result for
`bad` is `{'data': [], 'error': None}` — the error field is NOT set to
the failure, refuting the claim as stated. -/
theorem C1_error_swallowed_counterexample :
    (run_scrapers scrapersDemo ["good", "bad"]).get? 1
      = some ("bad", ⟨[], none⟩) ∧
    (∀ e : String,
      (run_scrapers scrapersDemo ["good", "bad"]).get? 1
        ≠ some ("bad", ⟨[], some e⟩)) := by
  refine ⟨rfl, fun e h => ?_⟩
  rw [show (run_scrapers scrapersDemo ["good", "bad"]).get? 1
      = some ("bad", ⟨[], none⟩) from rfl] at h
  simp at h

/-- C1 amended: when every requested name is registered and every
scraper's cleanup succeeds, the orchestrator returns one entry per
requested name, in order, each determined solely by its own scraper (no
sibling interference, no escaping exception): the scraper's `try`-body
records — `[]` when `initialize`/`scrape`/`save` raises — and a null
error.  A failing Source's exception is swallowed into empty records
rather than surfaced in the error field; the error field is set only
when `close()` itself raises. -/
theorem C1_isolation_amended (α : Type)
    (scrapers : List (String × Scraper α)) (names : List String)
    (hfound : ∀ n ∈ names, (lookupScraper scrapers n).isSome)
    (hclose : ∀ q ∈ scrapers, closeOk q.2 = true) :
    run_scrapers scrapers names = names.map (expectedEntry scrapers) := by
  revert hfound
  induction names with
  | nil => intro _; rfl
  | cons n rest ih =>
    intro hfound
    have hn := hfound n (by simp)
    rw [Option.isSome_iff_exists] at hn
    obtain ⟨s, hs⟩ := hn
    have hcs : closeOk s = true := by
      obtain ⟨p, hpmem, hps⟩ := lookupScraper_mem hs
      rw [← hps]
      exact hclose p hpmem
    have htasks : orchestratorTasks scrapers (n :: rest)
        = s :: orchestratorTasks scrapers rest := by
      unfold orchestratorTasks
      rw [List.filterMap_cons, hs]
    have hentry : run_scrapers scrapers (n :: rest)
        = (n, ⟨scrapeBody s, none⟩) :: run_scrapers scrapers rest := by
      simp only [run_scrapers, htasks, List.map_cons, List.zip_cons_cons,
        runSingleScraper_ok s hcs]
    rw [hentry, ih (fun m hm => hfound m (List.mem_cons_of_mem _ hm)),
      List.map_cons]
    have hexp : expectedEntry scrapers n = (n, ⟨scrapeBody s, none⟩) := by
      unfold expectedEntry
      rw [hs]
    rw [hexp]

/-- C1 witness: the amended isolation statement applied to the concrete
two-scraper registry with one always-failing scraper. -/
theorem C1_isolation_amended_witness :
    run_scrapers scrapersDemo ["good", "bad"]
      = ["good", "bad"].map (expectedEntry scrapersDemo) :=
  C1_isolation_amended Nat scrapersDemo ["good", "bad"]
    (by decide) (by decide)

/-- C2: the concurrency cap is not enforced — `run_scrapers` hands all
its tasks to `asyncio.gather` with no semaphore and never reads
`max_concurrent`, so with three registered scrapers and a configured cap
of 2 the event loop can reach a state with all 3 Source invocations
simultaneously in flight, exceeding the cap. -/
theorem C2_cap_not_enforced :
    ∃ s : List TaskPhase,
      GatherReachable
        (gatherStart (orchestratorTasks scrapersThree
          ["jobs", "financial", "odds"]).length) s ∧
      demoConfig.max_concurrent < inFlightCount s := by
  refine ⟨[.running, .running, .running], ?_, by decide⟩
  have h0 : gatherStart (orchestratorTasks scrapersThree
      ["jobs", "financial", "odds"]).length
      = [TaskPhase.pending, .pending, .pending] := rfl
  rw [h0]
  have s1 : GatherStep [TaskPhase.pending, .pending, .pending]
      [TaskPhase.running, .pending, .pending] :=
    GatherStep.start 0 _ rfl
  have s2 : GatherStep [TaskPhase.running, .pending, .pending]
      [TaskPhase.running, .running, .pending] :=
    GatherStep.start 1 _ rfl
  have s3 : GatherStep [TaskPhase.running, .running, .pending]
      [TaskPhase.running, .running, .running] :=
    GatherStep.start 2 _ rfl
  exact .tail (.tail (.tail .refl s1) s2) s3

/-- C10: normalization preserves record count and order — one output
record per input record, at the same position, and a record all of whose
values are empty is emitted as an empty record, not dropped. -/
theorem C10_normalize_count_order (data : List Rec) :
    (normalize_data data).length = data.length ∧
    (∀ i (h : i < data.length),
        (normalize_data data).get ⟨i, by simpa [normalize_data] using h⟩
          = cleanItem (data.get ⟨i, h⟩)) ∧
    (∀ item : Rec, (∀ p ∈ item, isEmptyVal p.2 = true) →
        cleanItem item = []) := by
  refine ⟨by simp [normalize_data], fun i h => ?_, fun item hall => ?_⟩
  · simp [normalize_data]
  · unfold cleanItem
    have hnil : item.filter (fun p => !isEmptyVal p.2) = [] := by
      rw [List.filter_eq_nil_iff]
      intro a ha
      simp [hall a ha]
    rw [hnil]
    rfl

/-- C10 witness: the shape facts at two concrete records, one of which
is all-empty and comes out as an empty record. -/
theorem C10_normalize_count_order_witness :
    (normalize_data demoData).length = demoData.length ∧
    (normalize_data demoData).get ⟨0, by simp [normalize_data, demoData]⟩
      = cleanItem (demoData.get ⟨0, by simp [demoData]⟩) ∧
    cleanItem [("a", Value.null)] = [] :=
  ⟨(C10_normalize_count_order demoData).1,
    (C10_normalize_count_order demoData).2.1 0 (by simp [demoData]),
    (C10_normalize_count_order demoData).2.2 [("a", Value.null)]
      (by decide)⟩

/-- C6: for every query, reference day and input list of job records,
`rank_jobs` assigns each record exactly the claimed relevance score
(+10 verbatim title match, +3 per query word in the title, +1 per query
word in the summary, +5 within 1 day, +2 within 7 days, 0 for an absent
or unparseable date, no error), and its output is the scored input
sorted descending by score, stably and deterministically: it is a
permutation of the scored input, pairwise descending, and records of
equal score keep their relative input order. -/
theorem C6_ranking (nowDay : Int) (query : String) (jobs : List Job) :
    (∀ j : Job, scoreJob nowDay query j = specRelevance nowDay query j) ∧
    (rank_jobs nowDay jobs query).Perm
      (jobs.map fun j => ScoredJob.mk j (scoreJob nowDay query j)) ∧
    (rank_jobs nowDay jobs query).Pairwise
      (fun a b => b.relevance_score ≤ a.relevance_score) ∧
    (∀ s : Nat,
      (rank_jobs nowDay jobs query).filter
          (fun x => x.relevance_score == s)
        = (jobs.map fun j => ScoredJob.mk j (scoreJob nowDay query j)).filter
            (fun x => x.relevance_score == s)) := by
  have hrank : rank_jobs nowDay jobs query
      = (jobs.map fun j => ScoredJob.mk j (scoreJob nowDay query j)).mergeSort
          rankLE := rfl
  refine ⟨fun j => scoreJob_eq_spec nowDay query j, ?_, ?_, ?_⟩
  · rw [hrank]
    exact List.mergeSort_perm _ rankLE
  · rw [hrank]
    have h := List.sorted_mergeSort rankLE_trans rankLE_total
      (jobs.map fun j => ScoredJob.mk j (scoreJob nowDay query j))
    exact h.imp (fun hab => by
      simpa [rankLE, decide_eq_true_eq] using hab)
  · intro s
    rw [hrank]
    have hsubl := List.filter_sublist
      (l := jobs.map fun j => ScoredJob.mk j (scoreJob nowDay query j))
      (p := fun x => x.relevance_score == s)
    have hpw : ((jobs.map fun j =>
        ScoredJob.mk j (scoreJob nowDay query j)).filter
          (fun x => x.relevance_score == s)).Pairwise
        (fun a b => rankLE a b = true) := by
      apply List.pairwise_of_forall_mem_list
      intro a ha b hb
      have ha2 := (List.mem_filter.mp ha).2
      have hb2 := (List.mem_filter.mp hb).2
      simp only [beq_iff_eq] at ha2 hb2
      simp [rankLE, ha2, hb2]
    have hsub2 := List.sublist_mergeSort rankLE_trans rankLE_total hpw hsubl
    have hself : ((jobs.map fun j =>
        ScoredJob.mk j (scoreJob nowDay query j)).filter
          (fun x => x.relevance_score == s)).filter
        (fun x => x.relevance_score == s)
        = (jobs.map fun j => ScoredJob.mk j (scoreJob nowDay query j)).filter
            (fun x => x.relevance_score == s) := by
      apply List.filter_eq_self.mpr
      intro a ha
      exact (List.mem_filter.mp ha).2
    have hsub3 := hself ▸
      (hsub2.filter (fun x : ScoredJob => x.relevance_score == s))
    have hperm := (List.mergeSort_perm
      (jobs.map fun j => ScoredJob.mk j (scoreJob nowDay query j))
      rankLE).filter (fun x : ScoredJob => x.relevance_score == s)
    exact (hsub3.eq_of_length hperm.length_eq.symm).symm

/-- C5 counterexample: normalization is not idempotent — a record whose
field holds the whitespace-only string `"  "` normalizes to a record
with the empty string (kept, since the emptiness filter runs before
stripping), and a second normalization then drops the field. -/
theorem C5_not_idempotent_counterexample :
    normalize_data [[("a", Value.str "  ")]] = [[("a", Value.str "")]] ∧
    normalize_data (normalize_data [[("a", Value.str "  ")]]) = [[]] ∧
    normalize_data (normalize_data [[("a", Value.str "  ")]])
      ≠ normalize_data [[("a", Value.str "  ")]] := by
  refine ⟨rfl, rfl, ?_⟩
  intro h
  rw [show normalize_data (normalize_data [[("a", Value.str "  ")]])
        = [[]] from rfl,
    show normalize_data [[("a", Value.str "  ")]]
        = [[("a", Value.str "")]] from rfl] at h
  simp at h

/-- C5 amended: normalization is idempotent on every record list none
of whose field values is a nonempty whitespace-only string (i.e. each
string value either is already empty or does not strip to empty); on
such inputs a second normalization changes nothing. -/
theorem C5_idempotent_amended (data : List Rec)
    (hsafe : ∀ item ∈ data, ∀ p ∈ item, stripSafe p.2 = true) :
    normalize_data (normalize_data data) = normalize_data data := by
  unfold normalize_data
  rw [List.map_map]
  apply List.map_congr_left
  intro item hmem
  exact cleanItem_idem item (hsafe item hmem)

/-- C5 witness: idempotence at a concrete record with a paddable
string, a number and a nested list. -/
theorem C5_idempotent_amended_witness :
    normalize_data (normalize_data demoClean) = normalize_data demoClean :=
  C5_idempotent_amended demoClean (by decide)

/-- C4: the run history is bounded at 100 entries with FIFO eviction:
appending to a history of length at most 100 leaves length at most 100,
and folding 150 summaries into an empty history leaves exactly 100
entries, namely summaries 51 through 150 in insertion order. -/
theorem C4_history_bound :
    (∀ (α : Type) (h : List HistoryEntry) (now : String)
        (results : List (String × CatResult α)), h.length ≤ 100 →
        (update_scraping_history h now results).length ≤ 100) ∧
    (∀ es : List HistoryEntry, es.length = 150 →
        es.foldl pushHistory [] = es.drop 50 ∧
        (es.foldl pushHistory []).length = 100) := by
  refine ⟨fun α h now results hh => pushHistory_le h _ hh, fun es h150 => ?_⟩
  have h := foldl_pushHistory es [] (by simp)
  simp only [List.nil_append, List.length_nil, Nat.zero_add, h150] at h
  norm_num at h
  rw [h]
  simp [List.length_drop, h150]

/-- C4 witness: a concrete append stays within the bound, and folding
150 concrete summaries leaves exactly entries 51-150. -/
theorem C4_history_bound_witness :
    (update_scraping_history []
      "t" [("jobs", CatResult.nonList (α := Nat))]).length ≤ 100 ∧
    (demoEntries 150).foldl pushHistory [] = (demoEntries 150).drop 50 := by
  constructor
  · exact C4_history_bound.1 Nat [] "t"
      [("jobs", CatResult.nonList)] (by decide)
  · exact (C4_history_bound.2 (demoEntries 150) (by simp [demoEntries])).1

/-- C8 counterexample: a run whose only category produced a non-list
result (as the `jobs` category always does) is summarised by the string
`'multiple'`, which is not an integer count, refuting the claim that
every `results_summary` value is an integer count. -/
theorem C8_runsummary_counterexample :
    (mkHistoryEntry "t" [("jobs", CatResult.nonList (α := Nat))]).results_summary
      = [("jobs", SummaryVal.marker "multiple")] ∧
    (∀ n : Nat, SummaryVal.marker "multiple" ≠ SummaryVal.count n) :=
  ⟨rfl, fun _ h => SummaryVal.noConfusion h⟩

/-- C8 amended: every history entry maps each list-valued category to
the integer count of its records and each non-list result to the marker
string `'multiple'`, and `total_items` is the sum of the record counts
over the list-valued categories only. -/
theorem C8_runsummary_amended (α : Type) (now : String)
    (results : List (String × CatResult α)) :
    (mkHistoryEntry now results).results_summary
      = results.map (fun p => (p.1, specSummaryVal p.2)) ∧
    (mkHistoryEntry now results).total_items
      = (results.filterMap (fun p => specListCount p.2)).sum := by
  constructor
  · apply List.map_congr_left
    intro p _
    cases p.2 <;> rfl
  · exact sum_counts_eq_sum_filterMap results

/-- C7: the scheduler loop does not survive even one iteration — the
manager never sets `self.logger`, so on every run outcome either the
success path's `logger.info` raises (and the handler's `logger.error`
then raises uncaught) or the handler's `logger.error` raises uncaught:
for every interval, every sequence of run outcomes and every iteration
index, the trace of `schedule_scraping` is a loop terminated by the
escaped `AttributeError`, never the claimed 300-second recovery sleep.
Were the logger attribute set, every iteration would continue, sleeping
`interval_minutes * 60` on success and a fixed 300 seconds on failure,
exactly as the claim describes. -/
theorem C7_scheduler_crashes (intervalMinutes : Nat)
    (runOutcomes : Nat → Except String Unit) (n : Nat) :
    schedule_scraping managerHasLogger intervalMinutes runOutcomes n
      = .error "AttributeError: logger" ∧
    (∀ outcome : Except String Unit,
      scheduleIter true intervalMinutes outcome
        = .ok (match outcome with
               | .ok _ => intervalMinutes * 60
               | .error _ => 300)) := by
  constructor
  · induction n with
    | zero =>
      cases h : runOutcomes 0 <;>
        simp [schedule_scraping, scheduleIter, managerHasLogger, h]
    | succ n ih =>
      simp [schedule_scraping, ih]
  · intro outcome
    cases outcome <;> rfl

end Scraping
